import Mathlib

/- Verification development for the `nutrislice_evaluation` food-search service
(`src/main.py`).  The pandas DataFrames are embedded shallowly: a DataFrame is a
`List` of records, a missing cell (`NaN`) is `Option.none`, and each pandas
operation used by the source is translated into an explicit Lean function on
those lists.  Numeric CSV cells are modelled as `Int` (no claim computes with
`price`, so the restriction from floats loses nothing), and fallible pandas
operations (column lookup by name, boolean masking with NA entries) return
`Except`. -/

namespace Nutri

/-- A value appearing in a result row handed back to the HTTP layer:
`df.values.tolist()` yields Python objects, with `NaN` for missing cells. -/
inductive Cell where
  | null : Cell
  | str : String → Cell
  | int : Int → Cell
  | nat : Nat → Cell
deriving DecidableEq

/-- A row of the raw food table after the positional rename of
`main.py` line 55: columns `food_name, food_id, description, price, image_ref,
import_name`.  `food_id` is the join key and is modelled as always present;
every other cell may be missing (`none` = pandas `NaN`). -/
structure FoodRec where
  food_name : Option String
  food_id : Int
  description : Option String
  price : Option Int
  image_ref : Option String
  import_name : Option String
deriving DecidableEq

/-- A row of the raw menu table (`main.py` line 54). -/
structure MenuRec where
  menu_id : Int
  menu_name : Option String
deriving DecidableEq

/-- A row of the raw nutrition table (`main.py` lines 57-58). -/
structure NutRec where
  nutrition_id : Int
  food_id : Int
  vitamin_d : Option Int
  vitamin_c : Option Int
  calcium : Option Int
deriving DecidableEq

/-- A row of the raw food-menu association table (`main.py` line 59). -/
structure FMRec where
  food_menu_id : Int
  food_id : Int
  menu_id : Int
deriving DecidableEq

/-- A row of the intermediate frame after the food/nutrition outer merge of
`main.py` lines 62-64 (nutrition's `nutrition_id` column is dropped by
`.iloc[:, 1:]` before the merge). -/
structure FNRow where
  food_name : Option String
  food_id : Int
  description : Option String
  price : Option Int
  image_ref : Option String
  import_name : Option String
  vitamin_d : Option Int
  vitamin_c : Option Int
  calcium : Option Int
deriving DecidableEq

/-- A row of the canonical food table: the intermediate row plus the
`menu_count` column added by the second outer merge (`main.py` lines 66-71).
`menu_count` is `none` exactly where that merge leaves `NaN`. -/
structure FoodRow where
  food_name : Option String
  food_id : Int
  description : Option String
  price : Option Int
  image_ref : Option String
  import_name : Option String
  vitamin_d : Option Int
  vitamin_c : Option Int
  calcium : Option Int
  menu_count : Option Nat
deriving DecidableEq

/-- `pd.DataFrame.merge(..., how="outer")` with scalar join keys.  For each
left row, every right row with an equal key is combined with it (the usual
cartesian matching of `merge`); a left row with no key match survives with the
right-hand fields absent, and right rows whose key occurs nowhere on the left
are appended as orphans with the left-hand fields absent.  pandas emits an
outer merge sorted by key; no claim below depends on row order, so the model
keeps left-to-right order instead. -/
def outerMerge {α β γ : Type} (keyA : α → Int) (keyB : β → Int)
    (comb : α → β → γ) (leftOnly : α → γ) (rightOnly : β → γ)
    (A : List α) (B : List β) : List γ :=
  (A.map (fun a =>
    match B.filter (fun b => keyB b == keyA a) with
    | [] => [leftOnly a]
    | ms => ms.map (comb a))).flatten
  ++ (B.filter (fun b => !(A.any (fun a => keyA a == keyB b)))).map rightOnly

/-- The number of rows of `l` whose key equals `k` — the multiplicity of a
join key in a table. -/
def keyCount {γ : Type} (key : γ → Int) (k : Int) (l : List γ) : Nat :=
  (l.filter (fun r => key r == k)).length

/-- `food_menu_data[["food_id"]].groupby("food_id").size()` (`main.py`
lines 67-69): one `(food_id, row-count)` pair per distinct `food_id` of the
association table.  pandas sorts the group keys; key order is irrelevant to
every claim, so the model uses first-occurrence order via `dedup`. -/
def menuCounts (fm : List FMRec) : List (Int × Nat) :=
  ((fm.map FMRec.food_id).dedup).map
    (fun k => (k, (fm.filter (fun e => e.food_id == k)).length))

/-- Combine an intermediate row with a `(food_id, count)` pair from
`menuCounts` (the matched case of the merge on `main.py` lines 70-71). -/
def withCount (x : FNRow) (c : Option Nat) : FoodRow :=
  ⟨x.food_name, x.food_id, x.description, x.price, x.image_ref, x.import_name,
   x.vitamin_d, x.vitamin_c, x.calcium, c⟩

/-- Combine a food row with a nutrition row (`.iloc[:, 1:]` has removed
`nutrition_id`), the matched case of the merge on `main.py` lines 62-64. -/
def joinFN (f : FoodRec) (n : NutRec) : FNRow :=
  ⟨f.food_name, f.food_id, f.description, f.price, f.image_ref, f.import_name,
   n.vitamin_d, n.vitamin_c, n.calcium⟩

/-- A food row with no nutrition match: nutrient fields are left absent. -/
def foodOnly (f : FoodRec) : FNRow :=
  ⟨f.food_name, f.food_id, f.description, f.price, f.image_ref, f.import_name,
   none, none, none⟩

/-- An orphan nutrition row with no food match: food fields are left absent. -/
def nutOnly (n : NutRec) : FNRow :=
  ⟨none, n.food_id, none, none, none, none,
   n.vitamin_d, n.vitamin_c, n.calcium⟩

/-- An orphan `(food_id, count)` pair whose key matches no row of the food
side of the second merge. -/
def countOnly (c : Int × Nat) : FoodRow :=
  ⟨none, c.1, none, none, none, none, none, none, none, some c.2⟩

/-- The dict of raw tables produced by `load_data`'s CSV reads. -/
structure RawData where
  food_data : List FoodRec
  menu_data : List MenuRec
  nutrition_data : List NutRec
  food_menu_data : List FMRec
deriving DecidableEq

/-- The dict returned by `process_data`: the canonical food table plus the
other three tables unchanged. -/
structure ProcData where
  food_data : List FoodRow
  menu_data : List MenuRec
  nutrition_data : List NutRec
  food_menu_data : List FMRec
deriving DecidableEq

/-- `process_data` (`main.py` lines 42-74): outer-merge nutrition onto food on
`food_id`, then outer-merge the per-food association counts onto the result. -/
def process_data (d : RawData) : ProcData :=
  let step1 := outerMerge FoodRec.food_id NutRec.food_id
    joinFN foodOnly nutOnly d.food_data d.nutrition_data
  let food := outerMerge FNRow.food_id Prod.fst
    (fun x c => withCount x (some c.2)) (fun x => withCount x none) countOnly
    step1 (menuCounts d.food_menu_data)
  ⟨food, d.menu_data, d.nutrition_data, d.food_menu_data⟩

/-- Python `str.strip()` (`main.py` line 88): drop leading and trailing
whitespace.  (Python strips Unicode whitespace; the queries the claims
exercise are ASCII, where `Char.isWhitespace` agrees.) -/
def pyStrip (s : String) : String :=
  String.mk (((s.data.dropWhile Char.isWhitespace).reverse.dropWhile
    Char.isWhitespace).reverse)

/-- Python `str.lower()` (`main.py` line 88).  (Python lower-cases full
Unicode; `Char.toLower` handles the ASCII range, which covers the data and
queries of the claims.) -/
def pyLower (s : String) : String :=
  String.mk (s.data.map Char.toLower)

/-- `pat` occurs as a contiguous substring of `hay`. -/
def hasSub (hay pat : List Char) : Bool :=
  hay.tails.any (fun t => pat.isPrefixOf t)

/-- The characters Python's `re` module treats specially anywhere in a
pattern (`. ^ $ * + ? { } [ ] \ | ( )`). -/
def reMeta : List Char :=
  ['.', '^', '$', '*', '+', '?', '\x7b', '\x7d', '[', ']', '\\', '|',
   '(', ')']

/-- `pat` is a literal pattern: it contains no `re` metacharacter.  On this
fragment `re.search(pat, s, re.IGNORECASE)` succeeds exactly when `pat`
occurs in `s` as a case-insensitive substring, so the regex call can be
modelled precisely; a pattern with a metacharacter is matched as a regular
expression (or rejected with `re.error` if malformed, e.g. a lone `(`),
behavior this embedding deliberately does not model. -/
def isLitPat (pat : String) : Bool :=
  pat.data.all (fun c => !(reMeta.contains c))

/-- `Series.str.contains(pat, case=False)` on one non-null cell (`main.py`
lines 92-93): pandas compiles `pat` as a regular expression (`regex=True`
is the default) and runs `re.search` with `IGNORECASE` on the cell.  This
function is the exact semantics of that call for literal patterns
(`isLitPat pat = true`): case-insensitive substring containment.
`selectNameDesc` consults it only behind an `isLitPat` guard, so the
unmodelled regex fragment is never silently given this literal meaning. -/
def containsCI (s pat : String) : Bool :=
  hasSub (pyLower s).data (pyLower pat).data

/-- Python string `<`: lexicographic comparison of code points.  (Spelled out
on `List Char` because the comparison must be executable inside the kernel.) -/
def chLe : List Char → List Char → Bool
  | [], _ => true
  | _ :: _, [] => false
  | a :: as, b :: bs =>
    if a.toNat < b.toNat then true
    else if b.toNat < a.toNat then false
    else chLe as bs

/-- Python string `<=` on whole strings, the comparison `sort_values` applies
to the `food_name` column. -/
def strLe (a b : String) : Bool :=
  chLe a.data b.data

/-- The sort key order of `results.sort_values(by="food_name")` (`main.py`
line 105): ascending by `food_name`, comparing Python strings by code point
(case is NOT folded here), with `NaN` names placed last
(`na_position="last"`, the pandas default). -/
def nameLe (a b : FoodRow) : Bool :=
  match a.food_name, b.food_name with
  | some x, some y => strLe x y
  | some _, none => true
  | none, some _ => false
  | none, none => true

/-- `nameLe` as a relation, for `List.insertionSort`. -/
def nameRel (a b : FoodRow) : Prop :=
  nameLe a b = true

instance nameRelDecidable : DecidableRel nameRel :=
  fun a b => decEq (nameLe a b) true

/-- How a query operation can fail in the model.  `keyError` and
`naMaskError` are program behaviors: unguarded pandas exceptions (the
source performs no validation of its own).  `patternNotLiteral` is NOT a
program behavior: it marks the boundary of the embedding.  For a query
containing an `re` metacharacter the program matches it as a regular
expression (or raises `re.error` if it is malformed); rather than assign
those queries a guessed semantics, the model flags them with this
constructor, and no claim theorem asserts anything about that branch. -/
inductive FilterErr where
  | keyError (col : String) : FilterErr
  | naMaskError : FilterErr
  | patternNotLiteral (pat : String) : FilterErr
deriving DecidableEq

/-- Disjunction of two mask cells the way pandas `|` combines object-dtype
boolean Series: if either operand is `NaN` the result is `NaN`
(`ops.vec_binop` keeps the NA operand when `bool | float` raises inside). -/
def obOr : Option Bool → Option Bool → Option Bool
  | some a, some b => some (a || b)
  | _, _ => none

/-- The mask cell for one row of the selection on `main.py` lines 91-94:
`food_name.str.contains(q, case=False) | description.str.contains(q,
case=False)`.  A null cell yields a `NaN` mask entry. -/
def maskOf (q : String) (r : FoodRow) : Option Bool :=
  obOr (r.food_name.map (fun s => containsCI s q))
    (r.description.map (fun s => containsCI s q))

/-- The `mode == "namedesc"` selection (`main.py` lines 90-94).  The guard
comes first because `str.contains` compiles the pattern before anything
else: a non-literal pattern leaves the modelled fragment right there (see
`FilterErr.patternNotLiteral`).  For a literal pattern: indexing a
DataFrame with a mask that contains NA entries raises
`ValueError: cannot index with vector containing NA / NaN values`; with a
clean mask it keeps exactly the rows whose mask entry is `True`. -/
def selectNameDesc (table : List FoodRow) (q : String) :
    Except FilterErr (List FoodRow) :=
  if !(isLitPat q) then
    .error (.patternNotLiteral q)
  else if (table.map (maskOf q)).any Option.isNone then
    .error .naMaskError
  else
    .ok (table.filter (fun r => (maskOf q r).getD false))

/-- Column lookup `food_data[name]` followed by `~ .isna()` (`main.py`
lines 96-98): `some p` maps each row to whether the named column's cell is
present; `none` models the pandas `KeyError` for a name that is no column of
the canonical frame.  There is no nutrient-specific validation in the source:
every canonical column is accepted. -/
def notnaCol (c : String) : Option (FoodRow → Bool) :=
  if c = "food_name" then some (fun r => r.food_name.isSome)
  else if c = "food_id" then some (fun _ => true)
  else if c = "description" then some (fun r => r.description.isSome)
  else if c = "price" then some (fun r => r.price.isSome)
  else if c = "image_ref" then some (fun r => r.image_ref.isSome)
  else if c = "import_name" then some (fun r => r.import_name.isSome)
  else if c = "vitamin_d" then some (fun r => r.vitamin_d.isSome)
  else if c = "vitamin_c" then some (fun r => r.vitamin_c.isSome)
  else if c = "calcium" then some (fun r => r.calcium.isSome)
  else if c = "menu_count" then some (fun r => r.menu_count.isSome)
  else none

/-- The `mode == "nutrient"` selection (`main.py` lines 95-98). -/
def selectNutrient (table : List FoodRow) (q : String) :
    Except FilterErr (List FoodRow) :=
  match notnaCol q with
  | none => .error (.keyError q)
  | some p => .ok (table.filter p)

/-- The two modes `filter_foods` is called with.  (Any other mode string
reaches line 101 with `results` unbound and raises `UnboundLocalError`; the
endpoints only ever pass these two.) -/
inductive Mode where
  | namedesc : Mode
  | nutrient : Mode
deriving DecidableEq

/-- The row selection step of `filter_foods`, lines 90-98. -/
def selectRows (table : List FoodRow) (q : String) :
    Mode → Except FilterErr (List FoodRow)
  | .namedesc => selectNameDesc table q
  | .nutrient => selectNutrient table q

/-- `int((len(results)-1)/10.)` (`main.py` line 101): float division by 10
then `int()`, which truncates toward zero — `Int.tdiv` is exactly that
truncation.  (The float quotient is far inside the range where `int()` of it
equals exact truncated division.) -/
def pagesLeft (n : Nat) : Int :=
  Int.tdiv ((n : Int) - 1) 10

/-- One result row as the endpoint ships it (`main.py` lines 104-108): the
frame is first projected to `["food_id", "food_name", "price",
"menu_count"]`, but `set_index("food_id")` then moves `food_id` out of the
columns, so `.values.tolist()` yields `[food_name, price, menu_count]`. -/
def projectRow (r : FoodRow) : List Cell :=
  [(match r.food_name with | none => Cell.null | some s => Cell.str s),
   (match r.price with | none => Cell.null | some v => Cell.int v),
   (match r.menu_count with | none => Cell.null | some v => Cell.nat v)]

/-- The dict `filter_foods` returns (`main.py` line 108). -/
structure FilterOutput where
  results : List (List Cell)
  pages_left : Int
deriving DecidableEq

/-- `filter_foods` (`main.py` lines 78-110): strip and lower-case the query,
select rows by mode, compute `pages_left` from the uncapped match count, sort
by `food_name`, keep the first `min(len, 5)` rows, and project each remaining
row.  (The source sorts after projecting to four columns and the model sorts
before projecting; the sort key `food_name` is preserved by the projection,
so the two orders agree.) -/
def filter_foods (table : List FoodRow) (query : String) (mode : Mode) :
    Except FilterErr FilterOutput :=
  let q := pyLower (pyStrip query)
  match selectRows table q mode with
  | .error e => .error e
  | .ok sel =>
    let sorted := List.insertionSort nameRel sel
    let capped := sorted.take (min sorted.length 5)
    .ok ⟨capped.map projectRow, pagesLeft sel.length⟩

/-- The filesystem as `load_data` observes it: whether `./data` exists
(`os.path.exists`, `main.py` line 20), and for each of the four CSV files
either its parsed contents or `none` when `pd.read_csv` would raise
`FileNotFoundError` or `PermissionError` (missing or unreadable file).
CSV parsing itself is abstracted: a readable file is modelled directly as its
parsed row list. -/
structure FileSys where
  dataDirExists : Bool
  food_file : Option (List FoodRec)
  menu_file : Option (List MenuRec)
  nutrition_file : Option (List NutRec)
  food_menu_file : Option (List FMRec)

/-- The error `load_data` raises (`main.py` lines 17-21 and 34-35): a
`FileNotFoundError` whose message names the path that could not be found or
read. -/
inductive LoadErr where
  | fileNotFound (path : String) : LoadErr
deriving DecidableEq

/-- The four `(key, path)` pairs of `main.py` lines 23-26, paths only, in
read order. -/
def dataPaths : List String :=
  ["./data/food_data.csv", "./data/menu_data.csv",
   "./data/nutrition_data.csv", "./data/food_menu_data.csv"]

/-- Whether the file at `p` is missing or unreadable in `fs`. -/
def fileMissing (fs : FileSys) (p : String) : Bool :=
  if p = "./data/food_data.csv" then fs.food_file.isNone
  else if p = "./data/menu_data.csv" then fs.menu_file.isNone
  else if p = "./data/nutrition_data.csv" then fs.nutrition_file.isNone
  else if p = "./data/food_menu_data.csv" then fs.food_menu_file.isNone
  else false

/-- `load_data` (`main.py` lines 11-39): fail on a missing `./data`
directory, read the four CSVs in order re-raising the first failure as a
`FileNotFoundError` naming that file's path, then hand the raw tables to
`process_data`.  A raised error aborts the function, so no partial dict is
ever returned. -/
def load_data (fs : FileSys) : Except LoadErr ProcData :=
  if fs.dataDirExists = false then .error (.fileNotFound "./data/")
  else match fs.food_file with
  | none => .error (.fileNotFound "./data/food_data.csv")
  | some fd => match fs.menu_file with
    | none => .error (.fileNotFound "./data/menu_data.csv")
    | some md => match fs.nutrition_file with
      | none => .error (.fileNotFound "./data/nutrition_data.csv")
      | some nd => match fs.food_menu_file with
        | none => .error (.fileNotFound "./data/food_menu_data.csv")
        | some fmd => .ok (process_data ⟨fd, md, nd, fmd⟩)

/-- The Flask application-context object `g` as `get_data` uses it: the
`data` attribute is absent until the first successful load stores it
(`main.py` lines 118-119). -/
structure GCtx where
  data : Option ProcData
deriving DecidableEq

/-- The observable state of one context: `g`, plus an instrumentation counter
of how many times `load_data` has been invoked (each invocation is a fresh
round of file reads — the counter makes "without re-reading any file"
expressible). -/
structure AppState where
  g : GCtx
  loads : Nat
deriving DecidableEq

/-- `get_data` (`main.py` lines 113-121): if `'data' not in g`, run
`load_data` (loader + denormalizer) and store the result in `g.data`; return
`g.data`.  When `load_data` raises, the exception propagates before the
assignment to `g.data`, so `g` is left untouched. -/
def get_data (fs : FileSys) (s : AppState) :
    Except LoadErr ProcData × AppState :=
  match s.g.data with
  | some d => (.ok d, s)
  | none =>
    match load_data fs with
    | .ok d => (.ok d, ⟨⟨some d⟩, s.loads + 1⟩)
    | .error e => (.error e, ⟨s.g, s.loads + 1⟩)

/-! Concrete data used by witnesses and counterexamples. -/

/-- A filesystem where everything is present and readable. -/
def fsOk : FileSys :=
  ⟨true, some [], some [], some [], some []⟩

/-- A filesystem where the menu CSV is missing or unreadable. -/
def fsNoMenu : FileSys :=
  ⟨true, some [], none, some [], some []⟩

/-- A filesystem with no `./data` directory at all. -/
def fsNoDir : FileSys :=
  ⟨false, none, none, none, none⟩

/-- A canonical row: "Apple Pie", complete name and description, no
association-table match (`menu_count` null, as the merge leaves it). -/
def rowApplePie : FoodRow :=
  ⟨some "Apple Pie", 1, some "a sweet baked dessert", some 3, some "ap.png",
   some "ap", some 2, none, some 100, none⟩

/-- A canonical row: "Banana", null description withheld? no — description
present, two menu appearances. -/
def rowBanana : FoodRow :=
  ⟨some "Banana", 2, some "a yellow fruit", some 1, none, none, none, some 9,
   none, some 2⟩

/-- A small canonical table with complete `food_name`/`description` cells. -/
def exTable : List FoodRow :=
  [rowApplePie, rowBanana]

/-- A canonical row with a lower-case name, for exercising the sort order. -/
def rowLowerApple : FoodRow :=
  ⟨some "apple", 3, some "lower-case name", some 2, none, none, none, none,
   none, some 1⟩

/-- A canonical row whose `description` cell is null. -/
def rowNullDesc : FoodRow :=
  ⟨some "Apple Pie", 1, none, some 3, none, none, none, none, none, none⟩

/-- A one-row canonical table whose single row has a null description. -/
def exTableNullDesc : List FoodRow :=
  [rowNullDesc]

/-- `chLe` is total. -/
theorem chLe_total : ∀ as bs : List Char, chLe as bs = true ∨ chLe bs as = true
  | [], _ => Or.inl rfl
  | _ :: _, [] => Or.inr rfl
  | a :: as, b :: bs => by
    rcases Nat.lt_trichotomy a.toNat b.toNat with h | h | h
    · exact Or.inl (by simp [chLe, h])
    · rcases chLe_total as bs with ih | ih
      · exact Or.inl (by simp [chLe, h, ih])
      · exact Or.inr (by simp [chLe, h, ih])
    · exact Or.inr (by simp [chLe, h])

/-- `chLe` is transitive. -/
theorem chLe_trans : ∀ as bs cs : List Char,
    chLe as bs = true → chLe bs cs = true → chLe as cs = true
  | [], _, _, _, _ => rfl
  | _ :: _, [], _, h, _ => absurd h (by simp [chLe])
  | _ :: _, _ :: _, [], _, h => absurd h (by simp [chLe])
  | a :: as, b :: bs, c :: cs, h1, h2 => by
    simp only [chLe] at h1 h2 ⊢
    by_cases hab : a.toNat < b.toNat
    · by_cases hbc : b.toNat < c.toNat
      · rw [if_pos (show a.toNat < c.toNat by omega)]
      · by_cases hcb : c.toNat < b.toNat
        · rw [if_neg hbc, if_pos hcb] at h2
          exact absurd h2 (by simp)
        · rw [if_pos (show a.toNat < c.toNat by omega)]
    · by_cases hba : b.toNat < a.toNat
      · rw [if_pos hba] at h1
        rw [if_neg hab] at h1
        exact absurd h1 (by simp)
      · rw [if_neg hab, if_neg hba] at h1
        by_cases hbc : b.toNat < c.toNat
        · rw [if_pos (show a.toNat < c.toNat by omega)]
        · by_cases hcb : c.toNat < b.toNat
          · rw [if_neg hbc, if_pos hcb] at h2
            exact absurd h2 (by simp)
          · rw [if_neg hbc, if_neg hcb] at h2
            rw [if_neg (show ¬ a.toNat < c.toNat by omega),
              if_neg (show ¬ c.toNat < a.toNat by omega)]
            exact chLe_trans as bs cs h1 h2

/-- `strLe` is total. -/
theorem strLe_total (a b : String) : strLe a b = true ∨ strLe b a = true :=
  chLe_total a.data b.data

/-- `strLe` is transitive. -/
theorem strLe_trans {a b c : String} (h1 : strLe a b = true)
    (h2 : strLe b c = true) : strLe a c = true :=
  chLe_trans a.data b.data c.data h1 h2

instance nameRelTotal : IsTotal FoodRow nameRel :=
  ⟨fun a b => by
    unfold nameRel nameLe
    cases a.food_name with
    | none =>
      cases b.food_name with
      | none => exact Or.inl rfl
      | some y => exact Or.inr rfl
    | some x =>
      cases b.food_name with
      | none => exact Or.inl rfl
      | some y => exact strLe_total x y⟩

instance nameRelTrans : IsTrans FoodRow nameRel :=
  ⟨fun a b c h1 h2 => by
    unfold nameRel nameLe at h1 h2 ⊢
    cases ha : a.food_name with
    | none =>
      cases hc : c.food_name with
      | none => rfl
      | some z =>
        rw [ha] at h1
        cases hb : b.food_name with
        | none => rw [hb, hc] at h2; exact absurd h2 (by simp)
        | some y => rw [hb] at h1; exact absurd h1 (by simp)
    | some x =>
      cases hc : c.food_name with
      | none => rfl
      | some z =>
        rw [ha] at h1
        rw [hc] at h2
        cases hb : b.food_name with
        | none => rw [hb] at h2; exact absurd h2 (by simp)
        | some y =>
          rw [hb] at h1 h2
          exact strLe_trans h1 h2⟩

/-- A successful row selection only keeps rows of the table. -/
theorem selectRows_subset {table : List FoodRow} {q : String} {m : Mode}
    {sel : List FoodRow} (h : selectRows table q m = .ok sel) :
    ∀ r ∈ sel, r ∈ table := by
  cases m with
  | namedesc =>
    unfold selectRows selectNameDesc at h
    by_cases hlit : isLitPat q = true
    · rw [if_neg (by simp [hlit])] at h
      by_cases hna : (table.map (maskOf q)).any Option.isNone
      · rw [if_pos hna] at h; exact absurd h (by simp)
      · rw [if_neg hna] at h
        simp only [Except.ok.injEq] at h
        subst h
        exact fun r hr => (List.mem_filter.mp hr).1
    · have hf : isLitPat q = false := by
        simpa using hlit
      rw [if_pos (by simp [hf])] at h
      exact absurd h (by simp)
  | nutrient =>
    unfold selectRows selectNutrient at h
    cases hc : notnaCol q with
    | none => rw [hc] at h; exact absurd h (by simp)
    | some p =>
      rw [hc] at h
      simp only [Except.ok.injEq] at h
      subst h
      exact fun r hr => (List.mem_filter.mp hr).1

/-- Unfolding equation for `filter_foods` (the `let`s reduced). -/
theorem filter_foods_eq (table : List FoodRow) (query : String) (mode : Mode) :
    filter_foods table query mode =
      match selectRows table (pyLower (pyStrip query)) mode with
      | .error e => .error e
      | .ok sel =>
        .ok ⟨((List.insertionSort nameRel sel).take
            (min (List.insertionSort nameRel sel).length 5)).map projectRow,
          pagesLeft sel.length⟩ := rfl

/-- Claim C1 (amended): every successful `filter_foods` response has at most
5 result rows, and each row is the 3-element fixed-order tuple
`[food_name, price, menu_count]` projected from some record of the table
(`set_index("food_id")` moves `food_id` out of the row values, so rows carry
3 fields, not 4). -/
theorem results_rows_shape (table : List FoodRow) (query : String)
    (mode : Mode) (out : FilterOutput)
    (h : filter_foods table query mode = .ok out) :
    out.results.length ≤ 5 ∧
    ∀ row ∈ out.results, row.length = 3 ∧ ∃ r ∈ table, row = projectRow r := by
  rw [filter_foods_eq] at h
  cases hs : selectRows table (pyLower (pyStrip query)) mode with
  | error e => rw [hs] at h; simp at h
  | ok sel =>
    rw [hs] at h
    simp only [Except.ok.injEq] at h
    subst h
    constructor
    · simp only [List.length_map, List.length_take]
      omega
    · intro row hrow
      simp only [List.mem_map] at hrow
      obtain ⟨r, hr, rfl⟩ := hrow
      refine ⟨rfl, r, ?_, rfl⟩
      have h1 : r ∈ List.insertionSort nameRel sel := List.take_subset _ _ hr
      have h2 : r ∈ sel :=
        ((List.perm_insertionSort nameRel sel).mem_iff).mp h1
      exact selectRows_subset hs r h2

/-- Claim C1 counterexample: on a concrete table and query the single
returned row is `[food_name, price, menu_count]` — 3 elements, with no
`food_id` — not the 4-element tuple the claim requires. -/
theorem results_rows_shape_cex :
    filter_foods exTable "apple" .namedesc =
      .ok ⟨[[Cell.str "Apple Pie", Cell.int 3, Cell.null]], 0⟩ ∧
    ([Cell.str "Apple Pie", Cell.int 3, Cell.null] : List Cell).length ≠ 4 :=
  ⟨rfl, by decide⟩

/-- Witness for `results_rows_shape` at a concrete table and query. -/
theorem results_rows_shape_witness :
    (⟨[[Cell.str "Apple Pie", Cell.int 3, Cell.null]], 0⟩ :
      FilterOutput).results.length ≤ 5 ∧
    ∀ row ∈ (⟨[[Cell.str "Apple Pie", Cell.int 3, Cell.null]], 0⟩ :
      FilterOutput).results,
      row.length = 3 ∧ ∃ r ∈ exTable, row = projectRow r :=
  results_rows_shape exTable "apple" .namedesc _ rfl

/-- Claim C2 (amended): `pages_left` is computed from the uncapped match
count `n` as `int((n-1)/10.)`, i.e. truncation toward zero: it equals
`floor((n-1)/10)` when `n > 0`, and `0` — not `-1` — when `n == 0`. -/
theorem pages_left_formula (table : List FoodRow) (query : String)
    (mode : Mode) (out : FilterOutput)
    (h : filter_foods table query mode = .ok out) :
    ∃ sel, selectRows table (pyLower (pyStrip query)) mode = .ok sel ∧
      out.pages_left = pagesLeft sel.length ∧
      (0 < sel.length → out.pages_left = ((sel.length - 1) / 10 : Nat)) ∧
      (sel.length = 0 → out.pages_left = 0) := by
  rw [filter_foods_eq] at h
  cases hs : selectRows table (pyLower (pyStrip query)) mode with
  | error e => rw [hs] at h; simp at h
  | ok sel =>
    rw [hs] at h
    simp only [Except.ok.injEq] at h
    subst h
    refine ⟨sel, rfl, rfl, ?_, ?_⟩
    · intro hn
      show pagesLeft sel.length = _
      unfold pagesLeft
      rw [show ((sel.length : Int) - 1) = ((sel.length - 1 : Nat) : Int) by
        omega]
      exact (Int.ofNat_tdiv (sel.length - 1) 10).symm
    · intro h0
      show pagesLeft sel.length = 0
      rw [h0]
      decide

/-- Claim C2 counterexample: a query with zero matches returns
`pages_left = 0` (Python `int(-0.1)` truncates toward zero), not the `-1`
the claim requires. -/
theorem pages_left_formula_cex :
    selectRows exTable (pyLower (pyStrip "zzz")) .namedesc = .ok [] ∧
    filter_foods exTable "zzz" .namedesc = .ok ⟨[], 0⟩ ∧ (0 : Int) ≠ -1 :=
  ⟨rfl, rfl, by decide⟩

/-- Witness for `pages_left_formula` at a concrete table and query. -/
theorem pages_left_formula_witness :
    ∃ sel, selectRows exTable (pyLower (pyStrip "a")) .namedesc = .ok sel ∧
      (⟨[[Cell.str "Apple Pie", Cell.int 3, Cell.null],
         [Cell.str "Banana", Cell.int 1, Cell.nat 2]], 0⟩ :
        FilterOutput).pages_left = pagesLeft sel.length ∧
      (0 < sel.length →
        (⟨[[Cell.str "Apple Pie", Cell.int 3, Cell.null],
           [Cell.str "Banana", Cell.int 1, Cell.nat 2]], 0⟩ :
          FilterOutput).pages_left = ((sel.length - 1) / 10 : Nat)) ∧
      (sel.length = 0 →
        (⟨[[Cell.str "Apple Pie", Cell.int 3, Cell.null],
           [Cell.str "Banana", Cell.int 1, Cell.nat 2]], 0⟩ :
          FilterOutput).pages_left = 0) :=
  pages_left_formula exTable "a" .namedesc _ rfl

/-- Claim C3 (amended): a nutrient-mode query that names no column of the
canonical frame fails with the unguarded pandas `KeyError` from
`food_data[_query]` carrying the looked-up name — the source defines no
distinct, explicitly validated `UnknownField` error — and a query naming any
canonical column, nutrient or not (for example `price`), is accepted. -/
theorem nutrient_unknown_column (table : List FoodRow) (query : String)
    (h : notnaCol (pyLower (pyStrip query)) = none) :
    filter_foods table query .nutrient =
      .error (.keyError (pyLower (pyStrip query))) ∧
    ∃ out, filter_foods table "price" .nutrient = .ok out := by
  constructor
  · rw [filter_foods_eq]
    show (match selectNutrient table (pyLower (pyStrip query)) with
      | .error e => (.error e : Except FilterErr FilterOutput)
      | .ok sel => _) = _
    unfold selectNutrient
    rw [h]
  · exact ⟨_, rfl⟩

/-- Claim C3 counterexample: querying nutrient mode for `protein` (not a
column) fails with the raw lookup `KeyError`, and querying for `price` —
which names no recognized nutrient column — succeeds instead of failing. -/
theorem nutrient_unknown_column_cex :
    filter_foods exTable "protein" .nutrient =
      .error (.keyError "protein") ∧
    filter_foods exTable "price" .nutrient =
      .ok ⟨[[Cell.str "Apple Pie", Cell.int 3, Cell.null],
            [Cell.str "Banana", Cell.int 1, Cell.nat 2]], 0⟩ :=
  ⟨rfl, rfl⟩

/-- Witness for `nutrient_unknown_column` at a concrete table and query. -/
theorem nutrient_unknown_column_witness :
    filter_foods exTable "vitamin_k" .nutrient =
      .error (.keyError (pyLower (pyStrip "vitamin_k"))) ∧
    ∃ out, filter_foods exTable "price" .nutrient = .ok out :=
  nutrient_unknown_column exTable "vitamin_k" rfl

/-- Claim C5 (amended): `str.contains` interprets the query as a regular
expression (`regex=True` is the pandas default), so substring semantics is
only the program's behavior for queries whose trimmed, lower-cased form
contains no `re` metacharacter — a metacharacter query is matched as a
regex (or raises `re.error` if malformed) instead.  For those literal
queries: on a table whose rows all carry non-null `food_name` and
`description`, TextMatch mode selects exactly the records where
`food_name` or `description` contains the trimmed, lower-cased query
case-insensitively as a substring; but when any row has a null `food_name`
or `description`, the boolean mask contains NA and the whole operation
fails with pandas' masking `ValueError` instead of treating that row as
non-matching. -/
theorem textmatch_selection (table : List FoodRow) (query : String) :
    (isLitPat (pyLower (pyStrip query)) = true →
      (∀ r ∈ table, r.food_name ≠ none ∧ r.description ≠ none) →
      selectRows table (pyLower (pyStrip query)) .namedesc =
        .ok (table.filter (fun r =>
          containsCI (r.food_name.getD "") (pyLower (pyStrip query)) ||
          containsCI (r.description.getD "") (pyLower (pyStrip query))))) ∧
    (isLitPat (pyLower (pyStrip query)) = true →
      (∃ r ∈ table, r.food_name = none ∨ r.description = none) →
      filter_foods table query .namedesc = .error .naMaskError) := by
  constructor
  · intro hlit hall
    have hmask : ∀ r ∈ table,
        (maskOf (pyLower (pyStrip query)) r).isNone = false := by
      intro r hr
      obtain ⟨hn, hd⟩ := hall r hr
      cases hne : r.food_name with
      | none => exact absurd hne hn
      | some x =>
        cases hde : r.description with
        | none => exact absurd hde hd
        | some y => simp [maskOf, hne, hde, obOr]
    have hnone :
        ¬ ((table.map (maskOf (pyLower (pyStrip query)))).any
          Option.isNone = true) := by
      rw [List.any_eq_true]
      rintro ⟨o, ho, hop⟩
      rw [List.mem_map] at ho
      obtain ⟨r, hr, rfl⟩ := ho
      rw [hmask r hr] at hop
      exact Bool.false_ne_true hop
    show selectNameDesc table (pyLower (pyStrip query)) = _
    unfold selectNameDesc
    rw [if_neg (show ¬ ((!(isLitPat (pyLower (pyStrip query)))) = true) by
      simp [hlit]), if_neg hnone]
    congr 1
    apply List.filter_congr
    intro r hr
    obtain ⟨hn, hd⟩ := hall r hr
    cases hne : r.food_name with
    | none => exact absurd hne hn
    | some x =>
      cases hde : r.description with
      | none => exact absurd hde hd
      | some y => simp [maskOf, hne, hde, obOr]
  · rintro hlit ⟨r, hr, hor⟩
    have hany : (table.map (maskOf (pyLower (pyStrip query)))).any
        Option.isNone = true := by
      rw [List.any_eq_true]
      refine ⟨maskOf (pyLower (pyStrip query)) r,
        List.mem_map_of_mem _ hr, ?_⟩
      rcases hor with hcase | hcase
      · cases hdd : r.description with
        | none => simp [maskOf, hcase, hdd, obOr]
        | some y => simp [maskOf, hcase, hdd, obOr]
      · cases hnn : r.food_name with
        | none => simp [maskOf, hcase, hnn, obOr]
        | some x => simp [maskOf, hcase, hnn, obOr]
    rw [filter_foods_eq]
    show (match selectNameDesc table (pyLower (pyStrip query)) with
      | .error e => (.error e : Except FilterErr FilterOutput)
      | .ok sel => _) = _
    unfold selectNameDesc
    rw [if_neg (show ¬ ((!(isLitPat (pyLower (pyStrip query)))) = true) by
      simp [hlit]), if_pos hany]

/-- Claim C5 counterexample: a record whose `food_name` matches the query
but whose `description` is null makes the whole TextMatch operation raise
pandas' NA-masking error instead of being selected with the null field
treated as non-matching. -/
theorem textmatch_selection_cex :
    rowNullDesc.food_name = some "Apple Pie" ∧
    containsCI "Apple Pie" (pyLower (pyStrip "apple")) = true ∧
    rowNullDesc.description = none ∧
    filter_foods exTableNullDesc "apple" .namedesc = .error .naMaskError :=
  ⟨rfl, by decide, rfl, rfl⟩

/-- Witness for `textmatch_selection`, exercising both implications on
concrete tables. -/
theorem textmatch_selection_witness :
    selectRows exTable (pyLower (pyStrip "apple")) .namedesc =
      .ok (exTable.filter (fun r =>
        containsCI (r.food_name.getD "") (pyLower (pyStrip "apple")) ||
        containsCI (r.description.getD "") (pyLower (pyStrip "apple")))) ∧
    filter_foods exTableNullDesc "apple" .namedesc = .error .naMaskError := by
  constructor
  · exact (textmatch_selection exTable "apple").1 (by decide) (by decide)
  · exact (textmatch_selection exTableNullDesc "apple").2 (by decide)
      ⟨rowNullDesc, by decide, Or.inr rfl⟩

/-- Claim C6: a successful response consists of the first
`min(total_matches, 5)` matching records taken in ascending order of
`food_name` — some arrangement of the matches that is sorted by the
case-sensitive code-point comparison `nameRel` (pandas' quicksort leaves the
order of tied names unspecified; everything the source guarantees is the key
order, which is what `Sorted` states).  The final conjunct exhibits the
asymmetry the claim notes: sorting does not fold case, so `"Banana"` orders
before `"apple"` even though matching is case-insensitive. -/
theorem results_sorted_capped (table : List FoodRow) (query : String)
    (mode : Mode) (out : FilterOutput)
    (h : filter_foods table query mode = .ok out) :
    (∃ sel sorted, selectRows table (pyLower (pyStrip query)) mode = .ok sel ∧
      List.Perm sorted sel ∧ List.Sorted nameRel sorted ∧
      out.results = (sorted.take (min sorted.length 5)).map projectRow) ∧
    List.insertionSort nameRel [rowLowerApple, rowBanana] =
      [rowBanana, rowLowerApple] := by
  constructor
  · rw [filter_foods_eq] at h
    cases hs : selectRows table (pyLower (pyStrip query)) mode with
    | error e => rw [hs] at h; simp at h
    | ok sel =>
      rw [hs] at h
      simp only [Except.ok.injEq] at h
      subst h
      exact ⟨sel, List.insertionSort nameRel sel, rfl,
        List.perm_insertionSort nameRel sel,
        List.sorted_insertionSort nameRel sel, rfl⟩
  · decide

/-- Witness for `results_sorted_capped` at a concrete table and query. -/
theorem results_sorted_capped_witness :
    (∃ sel sorted,
      selectRows exTable (pyLower (pyStrip "a")) .namedesc = .ok sel ∧
      List.Perm sorted sel ∧ List.Sorted nameRel sorted ∧
      (⟨[[Cell.str "Apple Pie", Cell.int 3, Cell.null],
         [Cell.str "Banana", Cell.int 1, Cell.nat 2]], 0⟩ :
        FilterOutput).results =
        (sorted.take (min sorted.length 5)).map projectRow) ∧
    List.insertionSort nameRel [rowLowerApple, rowBanana] =
      [rowBanana, rowLowerApple] :=
  results_sorted_capped exTable "a" .namedesc _ rfl

/-- Flattening a list of singletons is a plain map. -/
theorem flatten_map_singleton {α γ : Type} (g : α → γ) :
    ∀ A : List α, (A.map (fun a => [g a])).flatten = A.map g
  | [] => rfl
  | a :: A => by
    simp only [List.map_cons, List.flatten_cons, List.singleton_append,
      flatten_map_singleton g A]

/-- When the keys of `B` are distinct, filtering `B` for one key value gives
the empty list or a singleton. -/
theorem filter_key_nodup {β : Type} (keyB : β → Int) :
    ∀ B : List β, (B.map keyB).Nodup → ∀ v : Int,
      B.filter (fun b => keyB b == v) = [] ∨
      ∃ b, B.filter (fun b => keyB b == v) = [b]
  | [], _, _ => Or.inl rfl
  | b :: B, h, v => by
    rw [List.map_cons, List.nodup_cons] at h
    obtain ⟨hb, hB⟩ := h
    by_cases hv : (keyB b == v) = true
    · right
      refine ⟨b, ?_⟩
      have hnil : B.filter (fun x => keyB x == v) = [] := by
        rw [List.filter_eq_nil_iff]
        intro x hx hxv
        apply hb
        rw [List.mem_map]
        refine ⟨x, hx, ?_⟩
        have h1 : keyB x = v := by simpa using hxv
        have h2 : keyB b = v := by simpa using hv
        rw [h1, h2]
      rw [List.filter_cons, if_pos hv, hnil]
    · rw [List.filter_cons, if_neg hv]
      exact filter_key_nodup keyB B hB v

/-- Normal form of `outerMerge` when the right table has distinct keys: one
output row per left row, then the unmatched right rows. -/
theorem outerMerge_eq_of_nodup {α β γ : Type} (keyA : α → Int)
    (keyB : β → Int) (comb : α → β → γ) (lo : α → γ) (ro : β → γ)
    (A : List α) (B : List β) (hB : (B.map keyB).Nodup) :
    outerMerge keyA keyB comb lo ro A B =
      A.map (fun a =>
        match B.filter (fun b => keyB b == keyA a) with
        | [] => lo a
        | b :: _ => comb a b) ++
      (B.filter (fun b => !(A.any (fun a => keyA a == keyB b)))).map ro := by
  unfold outerMerge
  congr 1
  have hblock : (fun a =>
      match B.filter (fun b => keyB b == keyA a) with
      | [] => [lo a]
      | ms => ms.map (comb a)) =
      (fun a =>
        [match B.filter (fun b => keyB b == keyA a) with
         | [] => lo a
         | b :: _ => comb a b]) := by
    funext a
    rcases filter_key_nodup keyB B hB (keyA a) with hf | ⟨b, hf⟩
    · rw [hf]
    · rw [hf]
      rfl
  rw [hblock]
  exact flatten_map_singleton _ A

/-- `keyCount` distributes over append. -/
theorem keyCount_append {γ : Type} (key : γ → Int) (k : Int)
    (l1 l2 : List γ) :
    keyCount key k (l1 ++ l2) = keyCount key k l1 + keyCount key k l2 := by
  unfold keyCount
  rw [List.filter_append, List.length_append]

/-- `keyCount` of a key-preserving map. -/
theorem keyCount_map {α γ : Type} (keyG : γ → Int) (keyA : α → Int)
    (f : α → γ) (hf : ∀ a, keyG (f a) = keyA a) (k : Int) (A : List α) :
    keyCount keyG k (A.map f) = (A.filter (fun a => keyA a == k)).length := by
  induction A with
  | nil => rfl
  | cons a A ih =>
    simp only [keyCount, List.map_cons, List.filter_cons, hf a] at ih ⊢
    by_cases h : (keyA a == k) = true
    · simp [h, ih]
    · simp [h, ih]

/-- Key multiplicities in an outer merge whose right table has distinct
keys. -/
theorem keyCount_outerMerge {α β γ : Type} (keyA : α → Int) (keyB : β → Int)
    (keyG : γ → Int) (comb : α → β → γ) (lo : α → γ) (ro : β → γ)
    (A : List α) (B : List β) (hB : (B.map keyB).Nodup)
    (hc : ∀ a b, keyG (comb a b) = keyA a) (hl : ∀ a, keyG (lo a) = keyA a)
    (hr : ∀ b, keyG (ro b) = keyB b) (k : Int) :
    keyCount keyG k (outerMerge keyA keyB comb lo ro A B) =
      (A.filter (fun a => keyA a == k)).length +
      ((B.filter (fun b => !(A.any (fun a => keyA a == keyB b)))).filter
        (fun b => keyB b == k)).length := by
  rw [outerMerge_eq_of_nodup keyA keyB comb lo ro A B hB, keyCount_append]
  congr 1
  · apply keyCount_map
    intro a
    rcases filter_key_nodup keyB B hB (keyA a) with hf | ⟨b, hf⟩
    · rw [hf]
      exact hl a
    · rw [hf]
      exact hc a b
  · exact keyCount_map keyG keyB ro hr k _

/-- A key that occurs in no row leaves the key filter empty. -/
theorem length_filter_key_zero {α : Type} (key : α → Int) (k : Int)
    (A : List α) (hk : k ∉ A.map key) :
    (A.filter (fun a => key a == k)).length = 0 := by
  rw [List.length_eq_zero, List.filter_eq_nil_iff]
  intro a ha hka
  apply hk
  rw [List.mem_map]
  exact ⟨a, ha, by simpa using hka⟩

/-- A key occurring in a distinct-key table is hit by exactly one row. -/
theorem length_filter_key_one {α : Type} (key : α → Int) (k : Int) :
    ∀ A : List α, (A.map key).Nodup → k ∈ A.map key →
      (A.filter (fun a => key a == k)).length = 1
  | [], _, hk => absurd hk (by simp)
  | a :: A, h, hk => by
    rw [List.map_cons, List.nodup_cons] at h
    obtain ⟨ha, hA⟩ := h
    by_cases hak : (key a == k) = true
    · rw [List.filter_cons, if_pos hak, List.length_cons]
      have hkey : key a = k := by simpa using hak
      rw [length_filter_key_zero key k A (by rw [← hkey]; exact ha)]
    · rw [List.filter_cons, if_neg hak]
      apply length_filter_key_one key k A hA
      rcases List.mem_cons.mp hk with h1 | h1
      · exact absurd (by simp [h1]) hak
      · exact h1

/-- Where each row of an outer merge comes from: a matched pair, an
unmatched left row, or an unmatched right row. -/
theorem mem_outerMerge {α β γ : Type} {keyA : α → Int} {keyB : β → Int}
    {comb : α → β → γ} {lo : α → γ} {ro : β → γ} {A : List α} {B : List β}
    {g : γ} (hg : g ∈ outerMerge keyA keyB comb lo ro A B) :
    (∃ a ∈ A, ∃ b ∈ B, keyB b = keyA a ∧ g = comb a b) ∨
    (∃ a ∈ A, g = lo a) ∨
    (∃ b ∈ B, (∀ a ∈ A, keyA a ≠ keyB b) ∧ g = ro b) := by
  unfold outerMerge at hg
  rw [List.mem_append] at hg
  rcases hg with hg | hg
  · rw [List.mem_flatten] at hg
    obtain ⟨l, hl, hgl⟩ := hg
    rw [List.mem_map] at hl
    obtain ⟨a, ha, rfl⟩ := hl
    cases hf : B.filter (fun b => keyB b == keyA a) with
    | nil =>
      rw [hf] at hgl
      have hgl' : g ∈ [lo a] := hgl
      right; left
      exact ⟨a, ha, by simpa using hgl'⟩
    | cons b ms =>
      rw [hf] at hgl
      have hgl' : g ∈ (b :: ms).map (comb a) := hgl
      rw [List.mem_map] at hgl'
      obtain ⟨b', hb', rfl⟩ := hgl'
      have hbB : b' ∈ B.filter (fun x => keyB x == keyA a) := by
        rw [hf]; exact hb'
      rw [List.mem_filter] at hbB
      left
      exact ⟨a, ha, b', hbB.1, by simpa using hbB.2, rfl⟩
  · rw [List.mem_map] at hg
    obtain ⟨b, hb, rfl⟩ := hg
    rw [List.mem_filter] at hb
    right; right
    refine ⟨b, hb.1, ?_, rfl⟩
    intro a ha heq
    have hany := hb.2
    rw [Bool.not_eq_true', List.any_eq_false] at hany
    exact hany a ha (by simp [heq])

/-- The keys of `menuCounts` are the deduplicated association-table ids. -/
theorem menuCounts_keys (fm : List FMRec) :
    (menuCounts fm).map Prod.fst = (fm.map FMRec.food_id).dedup := by
  unfold menuCounts
  rw [List.map_map]
  exact List.map_id _

/-- The keys of `menuCounts` are distinct. -/
theorem menuCounts_nodup (fm : List FMRec) :
    ((menuCounts fm).map Prod.fst).Nodup := by
  rw [menuCounts_keys]
  exact List.nodup_dedup _

/-- Every `menuCounts` key is an id of the association table. -/
theorem menuCounts_mem_ids {fm : List FMRec} {c : Int × Nat}
    (h : c ∈ menuCounts fm) : c.1 ∈ fm.map FMRec.food_id := by
  unfold menuCounts at h
  rw [List.mem_map] at h
  obtain ⟨k, hk, rfl⟩ := h
  simpa using List.mem_dedup.mp hk

/-- Claim C4 (amended): a food present in the food table but absent from the
association table gets `menu_count = none` (pandas `NaN`) in the canonical
table — the outer merge fills the unmatched side with `NaN` and the source
never fills it with 0. -/
theorem menu_count_absent_null (fd : List FoodRec) (md : List MenuRec)
    (nd : List NutRec) (fm : List FMRec) (r : FoodRow)
    (hr : r ∈ (process_data ⟨fd, md, nd, fm⟩).food_data)
    (hfid : r.food_id ∈ fd.map FoodRec.food_id)
    (habs : r.food_id ∉ fm.map FMRec.food_id) :
    r.menu_count = none := by
  have hr' : r ∈ outerMerge FNRow.food_id Prod.fst
      (fun x c => withCount x (some c.2)) (fun x => withCount x none)
      countOnly
      (outerMerge FoodRec.food_id NutRec.food_id joinFN foodOnly nutOnly
        fd nd)
      (menuCounts fm) := hr
  rcases mem_outerMerge hr' with ⟨x, hx, c, hc, hkey, rfl⟩ |
    ⟨x, hx, rfl⟩ | ⟨c, hc, hall, rfl⟩
  · refine absurd ?_ habs
    show x.food_id ∈ fm.map FMRec.food_id
    rw [← hkey]
    exact menuCounts_mem_ids hc
  · rfl
  · refine absurd ?_ habs
    show c.1 ∈ fm.map FMRec.food_id
    exact menuCounts_mem_ids hc

/-- Claim C4 counterexample: a one-food table with an empty association
table yields `menu_count = NaN` (null), not `0`. -/
theorem menu_count_absent_null_cex :
    (process_data ⟨[⟨some "Apple Pie", 1, some "d", some 3, none, none⟩],
      [], [], []⟩).food_data.map FoodRow.menu_count = [none] ∧
    (none : Option Nat) ≠ some 0 :=
  ⟨rfl, by decide⟩

/-- Witness for `menu_count_absent_null` at a concrete input. -/
theorem menu_count_absent_null_witness :
    (⟨some "Apple Pie", 1, some "d", some 3, none, none, none, none, none,
      none⟩ : FoodRow).menu_count = none :=
  menu_count_absent_null
    [⟨some "Apple Pie", 1, some "d", some 3, none, none⟩] [] [] [] _
    (by decide) (by decide) (by decide)

/-- Claim C7: when `food_id` is unique within the food table and within the
nutrition table, every `food_id` present in either table occurs in exactly
one row of the canonical table (the outer joins drop no row and duplicate
none), and the unmatched side's fields are null: a food with no nutrition
row has null nutrient fields, and an orphan nutrition row has null food
fields. -/
theorem outer_join_exactly_once (fd : List FoodRec) (md : List MenuRec)
    (nd : List NutRec) (fm : List FMRec)
    (hfd : (fd.map FoodRec.food_id).Nodup)
    (hnd : (nd.map NutRec.food_id).Nodup) (k : Int)
    (hk : k ∈ fd.map FoodRec.food_id ∨ k ∈ nd.map NutRec.food_id) :
    keyCount FoodRow.food_id k (process_data ⟨fd, md, nd, fm⟩).food_data
      = 1 ∧
    (k ∉ nd.map NutRec.food_id →
      ∀ r ∈ (process_data ⟨fd, md, nd, fm⟩).food_data, r.food_id = k →
        r.vitamin_d = none ∧ r.vitamin_c = none ∧ r.calcium = none) ∧
    (k ∉ fd.map FoodRec.food_id →
      ∀ r ∈ (process_data ⟨fd, md, nd, fm⟩).food_data, r.food_id = k →
        r.food_name = none ∧ r.description = none ∧ r.price = none ∧
        r.image_ref = none ∧ r.import_name = none) := by
  have hstep1 : keyCount FNRow.food_id k
      (outerMerge FoodRec.food_id NutRec.food_id joinFN foodOnly nutOnly
        fd nd) = 1 := by
    rw [keyCount_outerMerge FoodRec.food_id NutRec.food_id FNRow.food_id
      joinFN foodOnly nutOnly fd nd hnd (fun _ _ => rfl) (fun _ => rfl)
      (fun _ => rfl) k]
    rcases hk with hk | hk
    · rw [length_filter_key_one FoodRec.food_id k fd hfd hk]
      rw [show (((nd.filter (fun b => !(fd.any
          (fun a => FoodRec.food_id a == NutRec.food_id b)))).filter
          (fun b => NutRec.food_id b == k)).length) = 0 from ?_]
      · rw [List.length_eq_zero, List.filter_eq_nil_iff]
        intro n hn hkn
        rw [List.mem_filter] at hn
        obtain ⟨-, hq⟩ := hn
        rw [Bool.not_eq_true', List.any_eq_false] at hq
        obtain ⟨f, hf, hfk⟩ := List.mem_map.mp hk
        have hnk : NutRec.food_id n = k := by simpa using hkn
        exact hq f hf (by simp [hfk, hnk])
    · by_cases hkf : k ∈ fd.map FoodRec.food_id
      · rw [length_filter_key_one FoodRec.food_id k fd hfd hkf]
        rw [show (((nd.filter (fun b => !(fd.any
            (fun a => FoodRec.food_id a == NutRec.food_id b)))).filter
            (fun b => NutRec.food_id b == k)).length) = 0 from ?_]
        · rw [List.length_eq_zero, List.filter_eq_nil_iff]
          intro n hn hkn
          rw [List.mem_filter] at hn
          obtain ⟨-, hq⟩ := hn
          rw [Bool.not_eq_true', List.any_eq_false] at hq
          obtain ⟨f, hf, hfk⟩ := List.mem_map.mp hkf
          have hnk : NutRec.food_id n = k := by simpa using hkn
          exact hq f hf (by simp [hfk, hnk])
      · rw [length_filter_key_zero FoodRec.food_id k fd hkf]
        have hsub : ((nd.filter (fun b => !(fd.any
            (fun a => FoodRec.food_id a == NutRec.food_id b)))).map
            NutRec.food_id).Nodup :=
          hnd.sublist (List.Sublist.map NutRec.food_id
            (List.filter_sublist nd))
        obtain ⟨n, hn, hnk⟩ := List.mem_map.mp hk
        have hq : (!(fd.any
            (fun a => FoodRec.food_id a == NutRec.food_id n))) = true := by
          rw [Bool.not_eq_true', List.any_eq_false]
          intro f hf hfe
          apply hkf
          rw [List.mem_map]
          exact ⟨f, hf, by
            have : FoodRec.food_id f = NutRec.food_id n := by simpa using hfe
            rw [this, hnk]⟩
        have hmem : k ∈ (nd.filter (fun b => !(fd.any
            (fun a => FoodRec.food_id a == NutRec.food_id b)))).map
            NutRec.food_id := by
          rw [List.mem_map]
          exact ⟨n, List.mem_filter.mpr ⟨hn, hq⟩, hnk⟩
        rw [length_filter_key_one NutRec.food_id k _ hsub hmem]
  have hpos : 0 < ((outerMerge FoodRec.food_id NutRec.food_id joinFN
      foodOnly nutOnly fd nd).filter
      (fun x => FNRow.food_id x == k)).length := by
    have : ((outerMerge FoodRec.food_id NutRec.food_id joinFN foodOnly
        nutOnly fd nd).filter (fun x => FNRow.food_id x == k)).length = 1 :=
      hstep1
    omega
  obtain ⟨x0, hx0⟩ := List.exists_mem_of_length_pos hpos
  rw [List.mem_filter] at hx0
  have hcount : keyCount FoodRow.food_id k
      (process_data ⟨fd, md, nd, fm⟩).food_data = 1 := by
    show keyCount FoodRow.food_id k (outerMerge FNRow.food_id Prod.fst
      (fun x c => withCount x (some c.2)) (fun x => withCount x none)
      countOnly
      (outerMerge FoodRec.food_id NutRec.food_id joinFN foodOnly nutOnly
        fd nd)
      (menuCounts fm)) = 1
    rw [keyCount_outerMerge FNRow.food_id Prod.fst FoodRow.food_id
      (fun x c => withCount x (some c.2)) (fun x => withCount x none)
      countOnly _ _ (menuCounts_nodup fm) (fun _ _ => rfl) (fun _ => rfl)
      (fun _ => rfl) k]
    have hz : ((((menuCounts fm).filter (fun b => !((outerMerge
        FoodRec.food_id NutRec.food_id joinFN foodOnly nutOnly fd nd).any
        (fun a => FNRow.food_id a == Prod.fst b)))).filter
        (fun b => Prod.fst b == k)).length) = 0 := by
      rw [List.length_eq_zero, List.filter_eq_nil_iff]
      intro c hc hck
      rw [List.mem_filter] at hc
      obtain ⟨-, hq⟩ := hc
      rw [Bool.not_eq_true', List.any_eq_false] at hq
      have hck' : Prod.fst c = k := by simpa using hck
      exact hq x0 hx0.1 (by
        have : FNRow.food_id x0 = k := by simpa using hx0.2
        simp [this, hck'])
    rw [hz]
    have hstep1' : (List.filter (fun a => FNRow.food_id a == k)
        (outerMerge FoodRec.food_id NutRec.food_id joinFN foodOnly nutOnly
          fd nd)).length = 1 := hstep1
    omega
  refine ⟨hcount, ?_, ?_⟩
  · intro hkn r hr hrk
    have hr' : r ∈ outerMerge FNRow.food_id Prod.fst
        (fun x c => withCount x (some c.2)) (fun x => withCount x none)
        countOnly
        (outerMerge FoodRec.food_id NutRec.food_id joinFN foodOnly nutOnly
          fd nd)
        (menuCounts fm) := hr
    have hx : ∀ x ∈ outerMerge FoodRec.food_id NutRec.food_id joinFN
        foodOnly nutOnly fd nd, FNRow.food_id x = k →
        x.vitamin_d = none ∧ x.vitamin_c = none ∧ x.calcium = none := by
      intro x hx hxk
      rcases mem_outerMerge hx with ⟨f, hf, n, hn, hkey, rfl⟩ |
        ⟨f, hf, rfl⟩ | ⟨n, hn, hall, rfl⟩
      · refine absurd ?_ hkn
        rw [List.mem_map]
        refine ⟨n, hn, ?_⟩
        rw [hkey]
        exact hxk
      · exact ⟨rfl, rfl, rfl⟩
      · refine absurd ?_ hkn
        rw [List.mem_map]
        exact ⟨n, hn, hxk⟩
    rcases mem_outerMerge hr' with ⟨x, hxm, c, hc, hkey, rfl⟩ |
      ⟨x, hxm, rfl⟩ | ⟨c, hc, hall, rfl⟩
    · exact hx x hxm hrk
    · exact hx x hxm hrk
    · exact ⟨rfl, rfl, rfl⟩
  · intro hkf r hr hrk
    have hr' : r ∈ outerMerge FNRow.food_id Prod.fst
        (fun x c => withCount x (some c.2)) (fun x => withCount x none)
        countOnly
        (outerMerge FoodRec.food_id NutRec.food_id joinFN foodOnly nutOnly
          fd nd)
        (menuCounts fm) := hr
    have hx : ∀ x ∈ outerMerge FoodRec.food_id NutRec.food_id joinFN
        foodOnly nutOnly fd nd, FNRow.food_id x = k →
        x.food_name = none ∧ x.description = none ∧ x.price = none ∧
        x.image_ref = none ∧ x.import_name = none := by
      intro x hx hxk
      rcases mem_outerMerge hx with ⟨f, hf, n, hn, hkey, rfl⟩ |
        ⟨f, hf, rfl⟩ | ⟨n, hn, hall, rfl⟩
      · refine absurd ?_ hkf
        rw [List.mem_map]
        exact ⟨f, hf, hxk⟩
      · refine absurd ?_ hkf
        rw [List.mem_map]
        exact ⟨f, hf, hxk⟩
      · exact ⟨rfl, rfl, rfl, rfl, rfl⟩
    rcases mem_outerMerge hr' with ⟨x, hxm, c, hc, hkey, rfl⟩ |
      ⟨x, hxm, rfl⟩ | ⟨c, hc, hall, rfl⟩
    · exact hx x hxm hrk
    · exact hx x hxm hrk
    · exact ⟨rfl, rfl, rfl, rfl, rfl⟩

/-- Witness for `outer_join_exactly_once` at a concrete input: an id present
only in the nutrition table. -/
theorem outer_join_exactly_once_witness :
    keyCount FoodRow.food_id 2 (process_data
      ⟨[⟨some "Apple Pie", 1, some "d", some 3, none, none⟩], [],
       [⟨10, 2, some 5, none, none⟩], []⟩).food_data = 1 ∧
    ((2 : Int) ∉ ([⟨10, 2, some 5, none, none⟩] :
        List NutRec).map NutRec.food_id →
      ∀ r ∈ (process_data
        ⟨[⟨some "Apple Pie", 1, some "d", some 3, none, none⟩], [],
         [⟨10, 2, some 5, none, none⟩], []⟩).food_data, r.food_id = 2 →
        r.vitamin_d = none ∧ r.vitamin_c = none ∧ r.calcium = none) ∧
    ((2 : Int) ∉ ([⟨some "Apple Pie", 1, some "d", some 3, none, none⟩] :
        List FoodRec).map FoodRec.food_id →
      ∀ r ∈ (process_data
        ⟨[⟨some "Apple Pie", 1, some "d", some 3, none, none⟩], [],
         [⟨10, 2, some 5, none, none⟩], []⟩).food_data, r.food_id = 2 →
        r.food_name = none ∧ r.description = none ∧ r.price = none ∧
        r.image_ref = none ∧ r.import_name = none) :=
  outer_join_exactly_once
    [⟨some "Apple Pie", 1, some "d", some 3, none, none⟩] []
    [⟨10, 2, some 5, none, none⟩] [] (by decide) (by decide) 2
    (Or.inr (by decide))

/-- Claim C8: whenever the data directory or any of the four required files
is missing or unreadable, `load_data` fails with a `FileNotFoundError` whose
message carries the offending path — `"./data/"` for the missing directory
(distinct from every file path), the file's own path otherwise — and returns
no table collection at all. -/
theorem load_data_missing_source (fs : FileSys)
    (h : fs.dataDirExists = false ∨
      ∃ p ∈ dataPaths, fileMissing fs p = true) :
    ∃ p, load_data fs = .error (.fileNotFound p) ∧
      (fs.dataDirExists = false → p = "./data/") ∧
      (fs.dataDirExists = true → p ∈ dataPaths ∧ fileMissing fs p = true) ∧
      ∀ d, load_data fs ≠ .ok d := by
  by_cases hdir : fs.dataDirExists = false
  · have herr : load_data fs = .error (.fileNotFound "./data/") := by
      unfold load_data
      rw [if_pos hdir]
    exact ⟨"./data/", herr, fun _ => rfl,
      fun hc => absurd hc (by simp [hdir]),
      fun d hd => by rw [herr] at hd; exact Except.noConfusion hd⟩
  · have hdir' : fs.dataDirExists = true := by
      cases hfs : fs.dataDirExists
      · exact absurd hfs hdir
      · rfl
    rcases h with h | ⟨p, hp, hmiss⟩
    · exact absurd h hdir
    cases hf1 : fs.food_file with
    | none =>
      have herr : load_data fs =
          .error (.fileNotFound "./data/food_data.csv") := by
        unfold load_data
        rw [if_neg hdir, hf1]
      exact ⟨"./data/food_data.csv", herr,
        fun hc => absurd hc hdir,
        fun _ => ⟨by simp [dataPaths], by simp [fileMissing, hf1]⟩,
        fun d hd => by rw [herr] at hd; exact Except.noConfusion hd⟩
    | some fd =>
      cases hf2 : fs.menu_file with
      | none =>
        have herr : load_data fs =
            .error (.fileNotFound "./data/menu_data.csv") := by
          unfold load_data
          rw [if_neg hdir, hf1, hf2]
        exact ⟨"./data/menu_data.csv", herr,
          fun hc => absurd hc hdir,
          fun _ => ⟨by simp [dataPaths], by simp [fileMissing, hf2]⟩,
          fun d hd => by rw [herr] at hd; exact Except.noConfusion hd⟩
      | some md =>
        cases hf3 : fs.nutrition_file with
        | none =>
          have herr : load_data fs =
              .error (.fileNotFound "./data/nutrition_data.csv") := by
            unfold load_data
            rw [if_neg hdir, hf1, hf2, hf3]
          exact ⟨"./data/nutrition_data.csv", herr,
            fun hc => absurd hc hdir,
            fun _ => ⟨by simp [dataPaths], by simp [fileMissing, hf3]⟩,
            fun d hd => by rw [herr] at hd; exact Except.noConfusion hd⟩
        | some nd =>
          cases hf4 : fs.food_menu_file with
          | none =>
            have herr : load_data fs =
                .error (.fileNotFound "./data/food_menu_data.csv") := by
              unfold load_data
              rw [if_neg hdir, hf1, hf2, hf3, hf4]
            exact ⟨"./data/food_menu_data.csv", herr,
              fun hc => absurd hc hdir,
              fun _ => ⟨by simp [dataPaths], by simp [fileMissing, hf4]⟩,
              fun d hd => by rw [herr] at hd; exact Except.noConfusion hd⟩
          | some fmd =>
            exfalso
            have hp' : p = "./data/food_data.csv" ∨
                p = "./data/menu_data.csv" ∨
                p = "./data/nutrition_data.csv" ∨
                p = "./data/food_menu_data.csv" := by
              simpa [dataPaths] using hp
            rcases hp' with rfl | rfl | rfl | rfl <;>
              simp [fileMissing, hf1, hf2, hf3, hf4] at hmiss

/-- Witness for `load_data_missing_source` at a concrete filesystem. -/
theorem load_data_missing_source_witness :
    ∃ p, load_data fsNoMenu = .error (.fileNotFound p) ∧
      (fsNoMenu.dataDirExists = false → p = "./data/") ∧
      (fsNoMenu.dataDirExists = true →
        p ∈ dataPaths ∧ fileMissing fsNoMenu p = true) ∧
      ∀ d, load_data fsNoMenu ≠ .ok d :=
  load_data_missing_source fsNoMenu
    (Or.inr ⟨"./data/menu_data.csv", by decide, by decide⟩)

/-- Claim C9: on a context with an empty cache, the first `get_data` call
runs `load_data` (loader plus denormalizer — the counter increments) and
stores its result in the context; the second call on the resulting context
returns the very same cached value and leaves the whole state untouched —
in particular the load counter is unchanged, so no file is re-read. -/
theorem get_data_caches (fs : FileSys) (d : ProcData)
    (h : load_data fs = .ok d) (s0 : AppState) (hs : s0.g.data = none) :
    (get_data fs s0).1 = .ok d ∧
    (get_data fs s0).2.g.data = some d ∧
    (get_data fs s0).2.loads = s0.loads + 1 ∧
    get_data fs (get_data fs s0).2 = (.ok d, (get_data fs s0).2) := by
  have h1 : get_data fs s0 = (.ok d, ⟨⟨some d⟩, s0.loads + 1⟩) := by
    unfold get_data
    rw [hs, h]
  rw [h1]
  exact ⟨rfl, rfl, rfl, rfl⟩

/-- Witness for `get_data_caches` at a concrete filesystem and context. -/
theorem get_data_caches_witness :
    (get_data fsOk ⟨⟨none⟩, 0⟩).1 = .ok (process_data ⟨[], [], [], []⟩) ∧
    (get_data fsOk ⟨⟨none⟩, 0⟩).2.g.data =
      some (process_data ⟨[], [], [], []⟩) ∧
    (get_data fsOk ⟨⟨none⟩, 0⟩).2.loads = (⟨⟨none⟩, 0⟩ : AppState).loads + 1 ∧
    get_data fsOk (get_data fsOk ⟨⟨none⟩, 0⟩).2 =
      (.ok (process_data ⟨[], [], [], []⟩), (get_data fsOk ⟨⟨none⟩, 0⟩).2) :=
  get_data_caches fsOk (process_data ⟨[], [], [], []⟩) rfl ⟨⟨none⟩, 0⟩ rfl

/-- Claim C10: when the load fails, `get_data` propagates the error and the
context's cache is left unchanged (the exception fires before the
assignment to `g.data`), so the next `get_data` call performs a full fresh
load: its result is exactly `load_data`'s outcome and the load counter
increments again. -/
theorem get_data_no_cache_on_error (fs : FileSys) (e : LoadErr)
    (h : load_data fs = .error e) (s0 : AppState) (hs : s0.g.data = none) :
    (get_data fs s0).1 = .error e ∧
    (get_data fs s0).2.g = s0.g ∧
    ∀ fs2 : FileSys,
      (get_data fs2 (get_data fs s0).2).1 = load_data fs2 ∧
      (get_data fs2 (get_data fs s0).2).2.loads = s0.loads + 2 := by
  have h1 : get_data fs s0 = (.error e, ⟨s0.g, s0.loads + 1⟩) := by
    unfold get_data
    rw [hs, h]
  rw [h1]
  refine ⟨rfl, rfl, fun fs2 => ?_⟩
  show (get_data fs2 ⟨s0.g, s0.loads + 1⟩).1 = load_data fs2 ∧
    (get_data fs2 ⟨s0.g, s0.loads + 1⟩).2.loads = s0.loads + 2
  unfold get_data
  rw [show (⟨s0.g, s0.loads + 1⟩ : AppState).g.data = none from hs]
  cases h2 : load_data fs2 with
  | ok d => exact ⟨rfl, rfl⟩
  | error e2 => exact ⟨rfl, rfl⟩

/-- Witness for `get_data_no_cache_on_error` at a concrete filesystem and
context, with the retry exercised against a now-complete filesystem. -/
theorem get_data_no_cache_on_error_witness :
    (get_data fsNoDir ⟨⟨none⟩, 0⟩).1 =
      .error (.fileNotFound "./data/") ∧
    (get_data fsNoDir ⟨⟨none⟩, 0⟩).2.g = (⟨⟨none⟩, 0⟩ : AppState).g ∧
    (get_data fsOk (get_data fsNoDir ⟨⟨none⟩, 0⟩).2).1 = load_data fsOk ∧
    (get_data fsOk (get_data fsNoDir ⟨⟨none⟩, 0⟩).2).2.loads =
      (⟨⟨none⟩, 0⟩ : AppState).loads + 2 := by
  have h := get_data_no_cache_on_error fsNoDir (.fileNotFound "./data/")
    rfl ⟨⟨none⟩, 0⟩ rfl
  exact ⟨h.1, h.2.1, (h.2.2 fsOk).1, (h.2.2 fsOk).2⟩

end Nutri
